import Mathlib

/-!
Verification of the FintcsManager numbering / balancing / loan-calculation
subsystem (src/server/storage.ts, src/server/routes.ts, and the voucher
management form).

JavaScript strings are modelled as lists of character codes (`JSString`);
monetary `number` values are modelled as exact rationals (`ℚ`), matching the
exact-rational reading the spec prescribes.  Database queries of the form
`ORDER BY col DESC LIMIT 1` are modelled by taking the lexicographic maximum
(`lastDesc`) of the stored identifier strings.
-/

namespace Fintcs

/-- A JavaScript string, as its sequence of character codes. -/
abbrev JSString := List Nat

/-- Embed a Lean string literal as a `JSString` (ASCII code units). -/
def str (s : String) : JSString := s.data.map Char.toNat

/-- Is the code a decimal digit (codes 48..57)? -/
def isDigitCode (c : Nat) : Bool := 48 ≤ c && c ≤ 57

/-- JavaScript string `<` comparison: lexicographic on code units. -/
def jsLtB : JSString → JSString → Bool
  | [], [] => false
  | [], _ :: _ => true
  | _ :: _, [] => false
  | a :: as, b :: bs => if a < b then true else if b < a then false else jsLtB as bs

/-- Models `ORDER BY identifier DESC LIMIT 1` over the stored identifiers:
the lexicographically greatest element, `none` on an empty table. -/
def lastDesc (l : List JSString) : Option JSString :=
  l.foldl (fun acc x =>
    match acc with
    | none => some x
    | some m => if jsLtB m x then some x else some m) none

/-- JavaScript `String.prototype.split(sep)` (single-code separator). -/
def jsSplit (sep : Nat) : JSString → List JSString
  | [] => [[]]
  | c :: rest =>
    let r := jsSplit sep rest
    if c = sep then [] :: r
    else
      match r with
      | [] => [[c]]
      | h :: t => (c :: h) :: t

/-- Value of a digit string (codes 48..57) read left to right. -/
def digitsVal (s : JSString) : Nat := s.foldl (fun a c => a * 10 + (c - 48)) 0

/-- JavaScript `parseInt` as used on identifier suffixes: take the leading
run of decimal digits; an empty run is `NaN`, modelled as `none`.  The input
`none` models `parseInt(undefined)` (also `NaN`). -/
def parseIntJS : Option JSString → Option Nat
  | none => none
  | some s =>
    let d := s.takeWhile isDigitCode
    if d.isEmpty then none else some (digitsVal d)

/-- Decimal digit codes of `n`, most significant first (fuel-based so the
kernel can evaluate it). -/
def natDigitsAux : Nat → Nat → JSString
  | 0, _ => []
  | fuel + 1, n =>
    if n < 10 then [48 + n]
    else natDigitsAux fuel (n / 10) ++ [48 + n % 10]

/-- JavaScript `Number.prototype.toString()` for a non-negative integer. -/
def natDigits (n : Nat) : JSString := natDigitsAux (n + 1) n

/-- `NaN`-propagating successor: `NaN + 1 = NaN`. -/
def optSucc : Option Nat → Option Nat
  | none => none
  | some n => some (n + 1)

/-- `Number.prototype.toString()` on a possibly-`NaN` value. -/
def numToString : Option Nat → JSString
  | none => str "NaN"
  | some n => natDigits n

/-- JavaScript `String.prototype.padStart(3, '0')`. -/
def padStart3 (s : JSString) : JSString :=
  if s.length < 3 then List.replicate (3 - s.length) 48 ++ s else s

/-- The canonical 3-digit zero-padded rendering of `k` (at least 3 digits:
values above 999 keep all their digits). -/
def pad3 (k : Nat) : JSString := padStart3 (natDigits k)

/-- JavaScript `String.prototype.slice(-2)`: the last two code units. -/
def jsSliceNeg2 (s : JSString) : JSString := s.drop (s.length - 2)

/-- `currentYear.toString().slice(-2)` from the generators. -/
def yearSuffix (year : Nat) : JSString := jsSliceNeg2 (natDigits year)

/-- `DatabaseStorage.generateMemberNumber`, after the `ORDER BY memNo DESC
LIMIT 1` query has produced the last member number (or `none`):
`parseInt(last.split('_')[1]) + 1`, zero-padded, behind the `MEM_` prefix. -/
def generateMemberNumberFromLast : Option JSString → JSString
  | none => str "MEM_001"
  | some last =>
    str "MEM_" ++ padStart3 (numToString (optSucc (parseIntJS ((jsSplit 95 last).get? 1))))

/-- `DatabaseStorage.generateMemberNumber` over the stored member numbers. -/
def generateMemberNumber (stored : List JSString) : JSString :=
  generateMemberNumberFromLast (lastDesc stored)

/-- `DatabaseStorage.generateLoanNumber`, after the query: `parseInt(last.slice(3)) + 1`
behind `L` plus the last two digits of the current year. -/
def generateLoanNumberFromLast (year : Nat) : Option JSString → JSString
  | none => str "L" ++ yearSuffix year ++ str "001"
  | some last =>
    str "L" ++ yearSuffix year ++
      padStart3 (numToString (optSucc (parseIntJS (some (last.drop 3)))))

/-- `DatabaseStorage.generateLoanNumber` over the stored loan numbers. -/
def generateLoanNumber (year : Nat) (stored : List JSString) : JSString :=
  generateLoanNumberFromLast year (lastDesc stored)

/-- `type.charAt(0).toUpperCase()`. -/
def typeInitial (t : JSString) : JSString :=
  match t with
  | [] => []
  | c :: _ => [if 97 ≤ c ∧ c ≤ 122 then c - 32 else c]

/-- `DatabaseStorage.generateVoucherNumber`, after the query filtered to the
given voucher type: `parseInt(last.slice(3)) + 1` behind the type initial and
year suffix. -/
def generateVoucherNumberFromLast (t : JSString) (year : Nat) : Option JSString → JSString
  | none => typeInitial t ++ yearSuffix year ++ str "001"
  | some last =>
    typeInitial t ++ yearSuffix year ++
      padStart3 (numToString (optSucc (parseIntJS (some (last.drop 3)))))

/-- A stored voucher row, restricted to the columns the generator reads. -/
structure StoredVoucher where
  voucherType : JSString
  voucherNo : JSString
  deriving DecidableEq

/-- `DatabaseStorage.generateVoucherNumber` over the stored vouchers:
`WHERE voucherType = t ORDER BY voucherNo DESC LIMIT 1`, then the suffix
increment. -/
def generateVoucherNumber (t : JSString) (year : Nat)
    (stored : List StoredVoucher) : JSString :=
  generateVoucherNumberFromLast t year
    (lastDesc ((stored.filter (fun v => v.voucherType == t)).map (fun v => v.voucherNo)))

/-- The numeric suffix a member number embeds, read the way the generator
reads it: `parseInt(memNo.split('_')[1])`. -/
def memSuffixVal (s : JSString) : Option Nat :=
  parseIntJS ((jsSplit 95 s).get? 1)

/-- The numeric suffix a loan or voucher number embeds, read the way the
generators read it: `parseInt(no.slice(3))`. -/
def sliceSuffixVal (s : JSString) : Option Nat :=
  parseIntJS (some (s.drop 3))

/-! ### Voucher balancer (voucher management form) -/

/-- A voucher entry: `{particulars, debit, credit}` with monetary `number`
fields modelled as exact rationals. -/
structure VoucherEntry where
  particulars : JSString
  debit : ℚ
  credit : ℚ
  deriving DecidableEq

/-- `calculateTotals`: the two `reduce`-computed totals of the entries. -/
def calculateTotals (entries : List VoucherEntry) : ℚ × ℚ :=
  (entries.foldl (fun sum entry => sum + entry.debit) 0,
   entries.foldl (fun sum entry => sum + entry.credit) 0)

/-- `isBalanced = totalDebit === totalCredit && totalDebit > 0`. -/
def isBalanced (entries : List VoucherEntry) : Bool :=
  let totals := calculateTotals entries
  decide (totals.1 = totals.2) && decide (totals.1 > 0)

/-! ### Loan calculator (standalone utility) -/

/-- `calculateNetLoan(loanAmount, previousLoan) = loanAmount - previousLoan`. -/
def calculateNetLoan (loanAmount previousLoan : ℚ) : ℚ :=
  loanAmount - previousLoan

/-- `calculateInstallmentAmount(netLoan, n) = n > 0 ? netLoan / n : 0`. -/
def calculateInstallmentAmount (netLoan numberOfInstallments : ℚ) : ℚ :=
  if numberOfInstallments > 0 then netLoan / numberOfInstallments else 0

/-! ### Creation operations (`DatabaseStorage.createMember` / `createLoan` /
`createVoucher`): generate the identifier when the supplied value is falsy
(absent or the empty string), then insert the record unchanged. -/

/-- JavaScript falsiness of an optional string: `undefined`, `null` and `""`
are falsy. -/
def isFalsyStr : Option JSString → Bool
  | none => true
  | some s => s.isEmpty

/-- An insert-member request: the optional `memNo` plus all other fields,
kept abstract (`rest`), since `createMember` never inspects them. -/
structure InsertMemberRec (α : Type) where
  memNo : Option JSString
  rest : α
  deriving DecidableEq

/-- `DatabaseStorage.createMember`: fill in `memNo` from the generator when
falsy, then insert the resulting record. -/
def createMember {α : Type} (m : InsertMemberRec α) (stored : List JSString) :
    InsertMemberRec α :=
  if isFalsyStr m.memNo then { m with memNo := some (generateMemberNumber stored) }
  else m

/-- An insert-loan request: the optional `loanNo` plus all other fields. -/
structure InsertLoanRec (α : Type) where
  loanNo : Option JSString
  rest : α
  deriving DecidableEq

/-- `DatabaseStorage.createLoan`. -/
def createLoan {α : Type} (m : InsertLoanRec α) (year : Nat)
    (stored : List JSString) : InsertLoanRec α :=
  if isFalsyStr m.loanNo then { m with loanNo := some (generateLoanNumber year stored) }
  else m

/-- An insert-voucher request: optional `voucherNo`, the `voucherType` (read
by the generator), the entries, and all other fields. -/
structure InsertVoucherRec (α : Type) where
  voucherNo : Option JSString
  voucherType : JSString
  entries : List VoucherEntry
  rest : α
  deriving DecidableEq

/-- `DatabaseStorage.createVoucher`. -/
def createVoucher {α : Type} (m : InsertVoucherRec α) (year : Nat)
    (stored : List StoredVoucher) : InsertVoucherRec α :=
  if isFalsyStr m.voucherNo then
    { m with voucherNo := some (generateVoucherNumber m.voucherType year stored) }
  else m

/-! ### The `POST /api/vouchers` handler (src/server/routes.ts).
`insertVoucherSchema` is a plain `createInsertSchema(vouchers).omit(...)`:
it validates field shape only and performs no balance check; the handler
calls `storage.createVoucher` and answers 201.  No code path between the
route and the insert inspects the totals of the entries. -/

/-- A persisted voucher row (the columns relevant to balancing). -/
structure DBVoucher where
  voucherType : JSString
  voucherNo : JSString
  entries : List VoucherEntry
  deriving DecidableEq

/-- The voucher-creation API operation: on a shape-valid request it persists
the (possibly numbered) voucher and returns HTTP 201; there is no balance
validation. -/
def postVouchersHandler {α : Type} (req : InsertVoucherRec α) (year : Nat)
    (db : List DBVoucher) : Nat × List DBVoucher :=
  let filled := createVoucher req year
    (db.map (fun v => StoredVoucher.mk v.voucherType v.voucherNo))
  let vNo := filled.voucherNo.getD []
  (201, db ++ [DBVoucher.mk filled.voucherType vNo filled.entries])

/-! ### Voucher form entry operations (`addEntry` / `removeEntry`) -/

/-- The debit/credit selector of the form. -/
inductive EntryType where
  | debit
  | credit
  deriving DecidableEq

/-- The `currentEntry` state of the form. -/
structure CurrentEntry where
  particulars : JSString
  debit : ℚ
  credit : ℚ
  type : EntryType
  amount : ℚ

/-- `addEntry`: rejected (list unchanged) when `particulars` is empty
(falsy); otherwise appends a single-sided entry built from the selected
type and amount. -/
def addEntry (entries : List VoucherEntry) (cur : CurrentEntry) :
    List VoucherEntry :=
  if cur.particulars.isEmpty then entries
  else
    entries ++ [{ particulars := cur.particulars,
                  debit := if cur.type = EntryType.debit then cur.amount else 0,
                  credit := if cur.type = EntryType.credit then cur.amount else 0 }]

/-- `removeEntry(index)`: `entries.filter((_, i) => i !== index)`. -/
def removeEntry (entries : List VoucherEntry) (index : Nat) :
    List VoucherEntry :=
  (entries.enum.filter (fun p => p.1 != index)).map (fun p => p.2)

/-- Entry lists reachable through the two list operations of the form alone. -/
inductive BuiltByForm : List VoucherEntry → Prop
  | nil : BuiltByForm []
  | add (cur : CurrentEntry) {l : List VoucherEntry} :
      BuiltByForm l → BuiltByForm (addEntry l cur)
  | remove (index : Nat) {l : List VoucherEntry} :
      BuiltByForm l → BuiltByForm (removeEntry l index)

/-! ## Helper lemmas -/

lemma foldl_add_map_sum (f : VoucherEntry → ℚ) :
    ∀ (l : List VoucherEntry) (a : ℚ),
      l.foldl (fun sum e => sum + f e) a = a + (l.map f).sum
  | [], a => by simp
  | e :: l, a => by
    rw [List.foldl_cons, foldl_add_map_sum f l, List.map_cons, List.sum_cons]
    ring

lemma calculateTotals_eq (entries : List VoucherEntry) :
    calculateTotals entries =
      ((entries.map VoucherEntry.debit).sum, (entries.map VoucherEntry.credit).sum) := by
  unfold calculateTotals
  rw [foldl_add_map_sum VoucherEntry.debit, foldl_add_map_sum VoucherEntry.credit]
  simp

/-! ## Theorems for the claims -/

/-- C1: `isBalanced(entries)` is true iff the debit-sum equals the credit-sum
and that common sum is strictly positive; it is false on the empty list; and
the two computed totals are exactly the debit-sum and the credit-sum. -/
theorem isBalanced_iff (entries : List VoucherEntry) :
    (isBalanced entries = true ↔
      ((entries.map VoucherEntry.debit).sum = (entries.map VoucherEntry.credit).sum ∧
        0 < (entries.map VoucherEntry.debit).sum)) ∧
    calculateTotals entries =
      ((entries.map VoucherEntry.debit).sum, (entries.map VoucherEntry.credit).sum) ∧
    isBalanced [] = false := by
  refine ⟨?_, calculateTotals_eq entries, by decide⟩
  rw [isBalanced, calculateTotals_eq]
  simp [Bool.and_eq_true, decide_eq_true_iff]

/-- C2 (code evidence): the create-voucher API operation persists an
unbalanced voucher (a single 100-debit entry, credit total 0) and answers
HTTP 201: the balance predicate is never consulted on the server side. -/
theorem postVouchers_persists_unbalanced :
    postVouchersHandler
        (InsertVoucherRec.mk (some (str "P24001")) (str "payment")
          [VoucherEntry.mk (str "cash") 100 0] ()) 2024 [] =
      (201, [DBVoucher.mk (str "payment") (str "P24001")
        [VoucherEntry.mk (str "cash") 100 0]]) ∧
    isBalanced [VoucherEntry.mk (str "cash") 100 0] = false := by
  refine ⟨rfl, ?_⟩
  rw [isBalanced, calculateTotals_eq]
  norm_num

/-- C3 (code evidence): on a last identifier that does not match the expected
format, each generator silently returns a malformed next identifier built
from `NaN` instead of failing with a data-integrity error. -/
theorem generators_silent_on_malformed :
    generateMemberNumber [str "MEM_X"] = str "MEM_NaN" ∧
    generateMemberNumberFromLast (some (str "MEM_X")) = str "MEM_NaN" ∧
    generateLoanNumberFromLast 2024 (some (str "LXX")) = str "L24NaN" ∧
    generateVoucherNumberFromLast (str "payment") 2024 (some (str "PXX")) =
      str "P24NaN" := by decide

/-- C4 (counterexample): once `MEM_1000` has been issued, the descending
string sort still selects `MEM_999` as the last member number, so the
generator re-issues `MEM_1000`, an identifier already present: the freshness
invariant fails for identifier counts of 1000 and above. -/
theorem generateMember_repeats_identifier :
    generateMemberNumber [str "MEM_999", str "MEM_1000"] = str "MEM_1000" ∧
    str "MEM_1000" ∈ [str "MEM_999", str "MEM_1000"] := by decide

/-- C6 (counterexample): with the store holding only `L24007` (no loan with
the year-2025 prefix `L25`), the year-2025 generator returns `L25008`, not
`L25001`: the suffix is parsed from the last loan number overall, not from
the last loan number with the current year-prefix. -/
theorem generateLoan_ignores_year_boundary :
    (str "L24007").take 3 ≠ str "L25" ∧
    generateLoanNumber 2025 [str "L24007"] = str "L25008" ∧
    str "L25008" ≠ str "L25001" := by decide

/-- C7: `calculateNetLoan` is exact subtraction, and `calculateInstallmentAmount`
is exact division for a positive installment count and 0 (not an error) for a
non-positive one. -/
theorem loan_calculator_exact (a p net n : ℚ) :
    calculateNetLoan a p = a - p ∧
    (0 < n → calculateInstallmentAmount net n = net / n) ∧
    (n ≤ 0 → calculateInstallmentAmount net n = 0) := by
  refine ⟨rfl, fun h => ?_, fun h => ?_⟩
  · rw [calculateInstallmentAmount, if_pos h]
  · rw [calculateInstallmentAmount, if_neg (not_lt.mpr h)]

/-- Witness for C7 at concrete inputs. -/
theorem loan_calculator_exact_w :
    calculateNetLoan 10 3 = 10 - 3 ∧
    calculateInstallmentAmount 6 2 = 6 / 2 ∧
    calculateInstallmentAmount 6 0 = 0 :=
  ⟨(loan_calculator_exact 10 3 6 2).1,
   (loan_calculator_exact 10 3 6 2).2.1 (by norm_num),
   (loan_calculator_exact 10 3 6 0).2.2 (by norm_num)⟩

/-- C8: for a non-positive count the installment amount is 0, and for a
positive count the installment amount times the count recovers the net loan
exactly (amounts being exact rationals). -/
theorem installment_times_count (net n : ℚ) :
    (n ≤ 0 → calculateInstallmentAmount net n = 0) ∧
    (0 < n → calculateInstallmentAmount net n * n = net) := by
  constructor
  · intro h
    rw [calculateInstallmentAmount, if_neg (not_lt.mpr h)]
  · intro h
    rw [calculateInstallmentAmount, if_pos h, div_mul_cancel₀]
    exact ne_of_gt h

/-- Witness for C8 at concrete inputs. -/
theorem installment_times_count_w :
    calculateInstallmentAmount 6 0 = 0 ∧
    calculateInstallmentAmount 6 2 * 2 = 6 :=
  ⟨(installment_times_count 6 0).1 (by norm_num),
   (installment_times_count 6 2).2 (by norm_num)⟩

/-- C9: each create operation persists a caller-supplied (non-empty)
identifier unchanged, generates the identifier exactly when none is
supplied, and leaves every other field exactly as supplied. -/
theorem create_ops_identifier_lifecycle :
    (∀ (α : Type) (m : InsertMemberRec α) (stored : List JSString) (s : JSString),
      m.memNo = some s → s ≠ [] → createMember m stored = m) ∧
    (∀ (α : Type) (m : InsertMemberRec α) (stored : List JSString),
      m.memNo = none →
        createMember m stored =
          { memNo := some (generateMemberNumber stored), rest := m.rest }) ∧
    (∀ (α : Type) (m : InsertLoanRec α) (year : Nat) (stored : List JSString)
        (s : JSString),
      m.loanNo = some s → s ≠ [] → createLoan m year stored = m) ∧
    (∀ (α : Type) (m : InsertLoanRec α) (year : Nat) (stored : List JSString),
      m.loanNo = none →
        createLoan m year stored =
          { loanNo := some (generateLoanNumber year stored), rest := m.rest }) ∧
    (∀ (α : Type) (m : InsertVoucherRec α) (year : Nat)
        (stored : List StoredVoucher) (s : JSString),
      m.voucherNo = some s → s ≠ [] → createVoucher m year stored = m) ∧
    (∀ (α : Type) (m : InsertVoucherRec α) (year : Nat)
        (stored : List StoredVoucher),
      m.voucherNo = none →
        createVoucher m year stored =
          { voucherNo := some (generateVoucherNumber m.voucherType year stored),
            voucherType := m.voucherType, entries := m.entries, rest := m.rest }) := by
  refine ⟨?_, ?_, ?_, ?_, ?_, ?_⟩
  · intro α m stored s hs hne
    simp [createMember, isFalsyStr, hs, List.isEmpty_iff, hne]
  · intro α m stored h
    simp [createMember, isFalsyStr, h]
  · intro α m year stored s hs hne
    simp [createLoan, isFalsyStr, hs, List.isEmpty_iff, hne]
  · intro α m year stored h
    simp [createLoan, isFalsyStr, h]
  · intro α m year stored s hs hne
    simp [createVoucher, isFalsyStr, hs, List.isEmpty_iff, hne]
  · intro α m year stored h
    simp [createVoucher, isFalsyStr, h]

/-- Witness for C9: a concrete explicit member number is persisted
unchanged, and a concrete identifier-less request gets the generated one. -/
theorem create_ops_identifier_lifecycle_w :
    createMember (InsertMemberRec.mk (some (str "MEM_123")) ()) [] =
      InsertMemberRec.mk (some (str "MEM_123")) () ∧
    createMember (InsertMemberRec.mk none ()) [] =
      InsertMemberRec.mk (some (generateMemberNumber [])) () :=
  ⟨create_ops_identifier_lifecycle.1 Unit
      (InsertMemberRec.mk (some (str "MEM_123")) ()) [] (str "MEM_123") rfl
      (by decide),
   create_ops_identifier_lifecycle.2.1 Unit (InsertMemberRec.mk none ()) [] rfl⟩

lemma mem_enumFrom_snd {p : Nat × VoucherEntry} :
    ∀ (n : Nat) (l : List VoucherEntry), p ∈ List.enumFrom n l → p.2 ∈ l := by
  intro n l
  induction l generalizing n with
  | nil => intro h; cases h
  | cons e t ih =>
    intro h
    rw [List.enumFrom] at h
    rcases List.mem_cons.mp h with h | h
    · rw [h]
      exact List.mem_cons_self e t
    · exact List.mem_cons_of_mem e (ih (n + 1) h)

lemma mem_of_mem_removeEntry {e : VoucherEntry} {l : List VoucherEntry}
    {index : Nat} (h : e ∈ removeEntry l index) : e ∈ l := by
  rw [removeEntry] at h
  rcases List.mem_map.mp h with ⟨p, hp, hpe⟩
  rcases List.mem_filter.mp hp with ⟨hmem, -⟩
  subst hpe
  exact mem_enumFrom_snd 0 l hmem

/-- C10: `addEntry` appends exactly one single-sided entry (debit = amount,
credit = 0 for the debit type; debit = 0, credit = amount for the credit
type), and every entries list built only through `addEntry` and
`removeEntry` consists of entries with debit = 0 or credit = 0. -/
theorem addEntry_entries_single_sided :
    (∀ (l : List VoucherEntry) (cur : CurrentEntry),
      cur.particulars ≠ [] →
      (cur.type = EntryType.debit →
        addEntry l cur = l ++ [VoucherEntry.mk cur.particulars cur.amount 0]) ∧
      (cur.type = EntryType.credit →
        addEntry l cur = l ++ [VoucherEntry.mk cur.particulars 0 cur.amount])) ∧
    (∀ l : List VoucherEntry, BuiltByForm l →
      ∀ e ∈ l, e.debit = 0 ∨ e.credit = 0) := by
  constructor
  · intro l cur hne
    constructor <;> intro ht <;>
      simp [addEntry, List.isEmpty_iff, hne, ht]
  · intro l hb
    induction hb with
    | nil => intro e he; cases he
    | add cur _ ih =>
      intro e he
      rw [addEntry] at he
      by_cases hp : cur.particulars.isEmpty
      · rw [if_pos hp] at he
        exact ih e he
      · rw [if_neg hp] at he
        rcases List.mem_append.mp he with h | h
        · exact ih e h
        · rcases List.mem_singleton.mp h with rfl
          cases ht : cur.type
          · right
            simp [ht]
          · left
            simp [ht]
    | remove index _ ih =>
      intro e he
      exact ih e (mem_of_mem_removeEntry he)

/-- Witness for C10: the entry added by a concrete debit-typed `addEntry`
call is single-sided. -/
theorem addEntry_entries_single_sided_w :
    (VoucherEntry.mk (str "cash") 5 0).debit = 0 ∨
    (VoucherEntry.mk (str "cash") 5 0).credit = 0 :=
  addEntry_entries_single_sided.2
    (addEntry [] (CurrentEntry.mk (str "cash") 0 0 EntryType.debit 5))
    (BuiltByForm.add (CurrentEntry.mk (str "cash") 0 0 EntryType.debit 5)
      BuiltByForm.nil)
    (VoucherEntry.mk (str "cash") 5 0)
    (by simp [addEntry, str])

/-! ## Decimal-rendering lemmas -/

lemma natDigitsAux_irrel :
    ∀ (f₁ f₂ n : Nat), n < f₁ → n < f₂ → natDigitsAux f₁ n = natDigitsAux f₂ n := by
  intro f₁
  induction f₁ with
  | zero => intro f₂ n h₁; omega
  | succ f ih =>
    intro f₂ n h₁ h₂
    cases f₂ with
    | zero => omega
    | succ g =>
      rw [natDigitsAux, natDigitsAux]
      by_cases h10 : n < 10
      · rw [if_pos h10, if_pos h10]
      · rw [if_neg h10, if_neg h10]
        have hlt : n / 10 < n := Nat.div_lt_self (by omega) (by omega)
        rw [ih g (n / 10) (by omega) (by omega)]

lemma natDigits_eq (n : Nat) :
    natDigits n = if n < 10 then [48 + n] else natDigits (n / 10) ++ [48 + n % 10] := by
  rw [natDigits, natDigitsAux]
  by_cases h10 : n < 10
  · rw [if_pos h10, if_pos h10]
  · rw [if_neg h10, if_neg h10, natDigits]
    have hlt : n / 10 < n := Nat.div_lt_self (by omega) (by omega)
    rw [natDigitsAux_irrel n (n / 10 + 1) (n / 10) (by omega) (by omega)]

lemma natDigits_digits (n : Nat) : ∀ c ∈ natDigits n, 48 ≤ c ∧ c ≤ 57 := by
  induction n using Nat.strong_induction_on with
  | _ n ih =>
    rw [natDigits_eq]
    by_cases h10 : n < 10
    · rw [if_pos h10]
      intro c hc
      rcases List.mem_singleton.mp hc with rfl
      omega
    · rw [if_neg h10]
      intro c hc
      rcases List.mem_append.mp hc with h | h
      · exact ih (n / 10) (Nat.div_lt_self (by omega) (by omega)) c h
      · rcases List.mem_singleton.mp h with rfl
        have := Nat.mod_lt n (show 0 < 10 by omega)
        omega

lemma natDigits_ne_nil (n : Nat) : natDigits n ≠ [] := by
  rw [natDigits_eq]
  by_cases h10 : n < 10
  · rw [if_pos h10]
    simp
  · rw [if_neg h10]
    simp

lemma digitsVal_concat (s : JSString) (c : Nat) :
    digitsVal (s ++ [c]) = digitsVal s * 10 + (c - 48) := by
  rw [digitsVal, digitsVal, List.foldl_append]
  rfl

lemma digitsVal_natDigits (n : Nat) : digitsVal (natDigits n) = n := by
  induction n using Nat.strong_induction_on with
  | _ n ih =>
    rw [natDigits_eq]
    by_cases h10 : n < 10
    · rw [if_pos h10]
      show 0 * 10 + (48 + n - 48) = n
      omega
    · rw [if_neg h10, digitsVal_concat,
        ih (n / 10) (Nat.div_lt_self (by omega) (by omega))]
      omega

lemma takeWhile_digits_eq :
    ∀ s : JSString, (∀ c ∈ s, 48 ≤ c ∧ c ≤ 57) → s.takeWhile isDigitCode = s := by
  intro s
  induction s with
  | nil => intro _; rfl
  | cons c t ih =>
    intro h
    have hc := h c (List.mem_cons_self c t)
    rw [List.takeWhile_cons, if_pos]
    · rw [ih fun x hx => h x (List.mem_cons_of_mem c hx)]
    · rw [isDigitCode]
      simp only [Bool.and_eq_true, decide_eq_true_iff]
      omega

lemma parseInt_digits (s : JSString) (h : ∀ c ∈ s, 48 ≤ c ∧ c ≤ 57)
    (hne : s ≠ []) : parseIntJS (some s) = some (digitsVal s) := by
  rw [parseIntJS]
  simp only [takeWhile_digits_eq s h]
  rw [if_neg]
  simpa [List.isEmpty_iff] using hne

lemma pad3_eq (k : Nat) (hk : k ≤ 999) :
    pad3 k = [48 + k / 100, 48 + k / 10 % 10, 48 + k % 10] := by
  rw [pad3]
  by_cases h1 : k < 10
  · rw [natDigits_eq, if_pos h1, padStart3]
    simp only [List.length_singleton]
    rw [if_pos (by omega : (1:Nat) < 3)]
    show [48, 48, 48 + k] = _
    rw [show k / 100 = 0 by omega, show k / 10 % 10 = 0 by omega,
      show k % 10 = k by omega]
  · by_cases h2 : k < 100
    · rw [natDigits_eq, if_neg h1, natDigits_eq,
        if_pos (show k / 10 < 10 by omega), padStart3]
      simp only [List.cons_append, List.nil_append, List.length_cons,
        List.length_nil]
      rw [if_pos (by omega : (2:Nat) < 3)]
      show [48, 48 + k / 10, 48 + k % 10] = _
      rw [show k / 100 = 0 by omega, show k / 10 % 10 = k / 10 by omega]
    · rw [natDigits_eq, if_neg h1, natDigits_eq,
        if_neg (show ¬ k / 10 < 10 by omega), natDigits_eq,
        if_pos (show k / 10 / 10 < 10 by omega), padStart3]
      simp only [List.cons_append, List.nil_append, List.length_cons,
        List.length_nil]
      rw [if_neg (by omega)]
      show [48 + k / 10 / 10, 48 + k / 10 % 10, 48 + k % 10] = _
      rw [show k / 10 / 10 = k / 100 by omega]

lemma pad3_digits (k : Nat) : ∀ c ∈ pad3 k, 48 ≤ c ∧ c ≤ 57 := by
  rw [pad3, padStart3]
  intro c hc
  by_cases h : (natDigits k).length < 3
  · rw [if_pos h] at hc
    rcases List.mem_append.mp hc with h' | h'
    · rcases List.eq_of_mem_replicate h' with rfl
      omega
    · exact natDigits_digits k c h'
  · rw [if_neg h] at hc
    exact natDigits_digits k c hc

lemma pad3_ne_nil (k : Nat) : pad3 k ≠ [] := by
  rw [pad3, padStart3]
  by_cases h : (natDigits k).length < 3
  · rw [if_pos h]
    simp [natDigits_ne_nil k]
  · rw [if_neg h]
    exact natDigits_ne_nil k

lemma digitsVal_replicate_zero :
    ∀ (j : Nat) (s : JSString), digitsVal (List.replicate j 48 ++ s) = digitsVal s := by
  intro j
  induction j with
  | zero => intro s; rfl
  | succ j ih =>
    intro s
    rw [List.replicate_succ, List.cons_append, digitsVal, List.foldl_cons]
    show List.foldl _ (0 * 10 + (48 - 48)) _ = _
    rw [show 0 * 10 + (48 - 48) = 0 by omega]
    exact ih s

lemma digitsVal_pad3 (k : Nat) : digitsVal (pad3 k) = k := by
  rw [pad3, padStart3]
  by_cases h : (natDigits k).length < 3
  · rw [if_pos h, digitsVal_replicate_zero, digitsVal_natDigits]
  · rw [if_neg h, digitsVal_natDigits]

lemma parse_pad3 (k : Nat) : parseIntJS (some (pad3 k)) = some k := by
  rw [parseInt_digits (pad3 k) (pad3_digits k) (pad3_ne_nil k), digitsVal_pad3]

/-! ## Lexicographic-order lemmas -/

lemma jsLtB_cons_iff (a b : Nat) (as bs : JSString) :
    jsLtB (a :: as) (b :: bs) = true ↔ a < b ∨ (a = b ∧ jsLtB as bs = true) := by
  rw [jsLtB]
  by_cases h1 : a < b
  · rw [if_pos h1]
    simp [h1]
  · rw [if_neg h1]
    by_cases h2 : b < a
    · rw [if_pos h2]
      constructor
      · intro h; cases h
      · intro h; omega
    · rw [if_neg h2]
      constructor
      · intro h
        exact Or.inr ⟨by omega, h⟩
      · intro h
        rcases h with h | ⟨-, h⟩
        · omega
        · exact h

lemma jsLtB_irrefl : ∀ s : JSString, jsLtB s s = false := by
  intro s
  induction s with
  | nil => rfl
  | cons c t ih =>
    rw [jsLtB, if_neg (Nat.lt_irrefl c), if_neg (Nat.lt_irrefl c)]
    exact ih

lemma jsLtB_append (p : JSString) :
    ∀ a b : JSString, jsLtB (p ++ a) (p ++ b) = jsLtB a b := by
  induction p with
  | nil => intro a b; rfl
  | cons c t ih =>
    intro a b
    rw [List.cons_append, List.cons_append, jsLtB,
      if_neg (Nat.lt_irrefl c), if_neg (Nat.lt_irrefl c)]
    exact ih a b

lemma jsLtB_trans :
    ∀ a b c : JSString, jsLtB a b = true → jsLtB b c = true → jsLtB a c = true := by
  intro a
  induction a with
  | nil =>
    intro b c hab hbc
    cases b with
    | nil => cases hab
    | cons y ys =>
      cases c with
      | nil => cases hbc
      | cons z zs => rfl
  | cons x xs ih =>
    intro b c hab hbc
    cases b with
    | nil => cases hab
    | cons y ys =>
      cases c with
      | nil => cases hbc
      | cons z zs =>
        rcases (jsLtB_cons_iff x y xs ys).mp hab with h1 | ⟨h1, h1t⟩ <;>
          rcases (jsLtB_cons_iff y z ys zs).mp hbc with h2 | ⟨h2, h2t⟩ <;>
          rw [jsLtB_cons_iff]
        · exact Or.inl (by omega)
        · exact Or.inl (by omega)
        · exact Or.inl (by omega)
        · exact Or.inr ⟨by omega, ih ys zs h1t h2t⟩

lemma jsLtB_connex :
    ∀ a b : JSString, jsLtB a b = false → jsLtB b a = false → a = b := by
  intro a
  induction a with
  | nil =>
    intro b hab _
    cases b with
    | nil => rfl
    | cons y ys => cases hab
  | cons x xs ih =>
    intro b hab hba
    cases b with
    | nil => cases hba
    | cons y ys =>
      have hxy : ¬ x < y := fun h =>
        absurd hab (by rw [(jsLtB_cons_iff x y xs ys).mpr (Or.inl h)]; simp)
      have hyx : ¬ y < x := fun h =>
        absurd hba (by rw [(jsLtB_cons_iff y x ys xs).mpr (Or.inl h)]; simp)
      have hxseq : x = y := by omega
      subst hxseq
      have h1 : jsLtB xs ys = false := by
        cases h : jsLtB xs ys with
        | false => rfl
        | true =>
          exact absurd hab
            (by rw [(jsLtB_cons_iff x x xs ys).mpr (Or.inr ⟨rfl, h⟩)]; simp)
      have h2 : jsLtB ys xs = false := by
        cases h : jsLtB ys xs with
        | false => rfl
        | true =>
          exact absurd hba
            (by rw [(jsLtB_cons_iff x x ys xs).mpr (Or.inr ⟨rfl, h⟩)]; simp)
      rw [ih ys h1 h2]

/-! ## `lastDesc` (descending sort, limit 1) lemmas -/

lemma foldl_max_spec :
    ∀ (l : List JSString) (m : JSString),
      ∃ r, l.foldl (fun acc x =>
          match acc with
          | none => some x
          | some mm => if jsLtB mm x then some x else some mm) (some m) = some r ∧
        (r = m ∨ r ∈ l) ∧ jsLtB r m = false ∧ ∀ x ∈ l, jsLtB r x = false := by
  intro l
  induction l with
  | nil =>
    intro m
    exact ⟨m, rfl, Or.inl rfl, jsLtB_irrefl m, fun x hx => absurd hx (by simp)⟩
  | cons x t ih =>
    intro m
    rw [List.foldl_cons]
    by_cases h : jsLtB m x = true
    · rw [show (match some m with
          | none => some x
          | some mm => if jsLtB mm x = true then some x else some mm) = some x by
        simp [h]]
      rcases ih x with ⟨r, hfold, hmem, hrx, hall⟩
      refine ⟨r, hfold, ?_, ?_, ?_⟩
      · rcases hmem with rfl | hr
        · exact Or.inr (List.mem_cons_self r t)
        · exact Or.inr (List.mem_cons_of_mem x hr)
      · cases hrm : jsLtB r m with
        | false => rfl
        | true => exact absurd (jsLtB_trans r m x hrm h) (by rw [hrx]; simp)
      · intro y hy
        rcases List.mem_cons.mp hy with rfl | hyt
        · exact hrx
        · exact hall y hyt
    · rw [show (match some m with
          | none => some x
          | some mm => if jsLtB mm x = true then some x else some mm) = some m by
        simp [h]]
      rcases ih m with ⟨r, hfold, hmem, hrm, hall⟩
      refine ⟨r, hfold, ?_, hrm, ?_⟩
      · rcases hmem with rfl | hr
        · exact Or.inl rfl
        · exact Or.inr (List.mem_cons_of_mem x hr)
      · intro y hy
        rcases List.mem_cons.mp hy with rfl | hyt
        · cases hry : jsLtB r y with
          | false => rfl
          | true =>
            have hmx : jsLtB m y = false := Bool.of_not_eq_true h
            have hyx : jsLtB y m = false := by
              cases hyx : jsLtB y m with
              | false => rfl
              | true => exact absurd (jsLtB_trans r y m hry hyx) (by rw [hrm]; simp)
            have : y = m := jsLtB_connex y m hyx hmx
            subst this
            exact absurd hry (by rw [hrm]; simp)
        · exact hall y hyt

lemma lastDesc_spec (l : List JSString) (hne : l ≠ []) :
    ∃ r, lastDesc l = some r ∧ r ∈ l ∧ ∀ x ∈ l, jsLtB r x = false := by
  cases l with
  | nil => exact absurd rfl hne
  | cons x t =>
    rw [lastDesc, List.foldl_cons]
    rcases foldl_max_spec t x with ⟨r, hfold, hmem, hrx, hall⟩
    refine ⟨r, hfold, ?_, ?_⟩
    · rcases hmem with rfl | hr
      · exact List.mem_cons_self r t
      · exact List.mem_cons_of_mem x hr
    · intro y hy
      rcases List.mem_cons.mp hy with rfl | hyt
      · exact hrx
      · exact hall y hyt

lemma lastDesc_eq_none (l : List JSString) (h : lastDesc l = none) : l = [] := by
  cases l with
  | nil => rfl
  | cons x t =>
    rw [lastDesc, List.foldl_cons] at h
    rcases foldl_max_spec t x with ⟨r, hfold, -, -, -⟩
    rw [hfold] at h
    cases h

lemma pad3_lt_iff (k₁ k₂ : Nat) (h₁ : k₁ ≤ 999) (h₂ : k₂ ≤ 999) :
    (jsLtB (pad3 k₁) (pad3 k₂) = true ↔ k₁ < k₂) := by
  rw [pad3_eq k₁ h₁, pad3_eq k₂ h₂]
  rw [jsLtB_cons_iff, jsLtB_cons_iff, jsLtB_cons_iff]
  rw [show jsLtB ([] : JSString) [] = false from rfl]
  constructor
  · intro h
    rcases h with h | ⟨e1, h | ⟨e2, h | ⟨e3, h⟩⟩⟩
    · omega
    · omega
    · omega
    · cases h
  · intro h
    by_cases c1 : k₁ / 100 < k₂ / 100
    · exact Or.inl (by omega)
    · by_cases c2 : k₁ / 100 = k₂ / 100
      · by_cases c3 : k₁ / 10 % 10 < k₂ / 10 % 10
        · exact Or.inr ⟨by omega, Or.inl (by omega)⟩
        · by_cases c4 : k₁ / 10 % 10 = k₂ / 10 % 10
          · exact Or.inr ⟨by omega, Or.inr ⟨by omega, Or.inl (by omega)⟩⟩
          · omega
      · omega

/-! ## `split` / parse lemmas -/

lemma jsSplit_no_sep (sep : Nat) :
    ∀ s : JSString, (∀ c ∈ s, c ≠ sep) → jsSplit sep s = [s] := by
  intro s
  induction s with
  | nil => intro _; rfl
  | cons c t ih =>
    intro h
    rw [jsSplit, if_neg (h c (List.mem_cons_self c t)),
      ih fun x hx => h x (List.mem_cons_of_mem c hx)]

lemma jsSplit_one_sep (sep : Nat) (p t : JSString)
    (hp : ∀ c ∈ p, c ≠ sep) (ht : ∀ c ∈ t, c ≠ sep) :
    jsSplit sep (p ++ sep :: t) = [p, t] := by
  induction p with
  | nil =>
    rw [List.nil_append, jsSplit, if_pos rfl, jsSplit_no_sep sep t ht]
  | cons c p' ih =>
    rw [List.cons_append, jsSplit, if_neg (hp c (List.mem_cons_self c p')),
      ih fun x hx => hp x (List.mem_cons_of_mem c hx)]

lemma memSuffixVal_padded (d : JSString) (hd : ∀ c ∈ d, 48 ≤ c ∧ c ≤ 57)
    (hne : d ≠ []) : memSuffixVal (str "MEM_" ++ d) = some (digitsVal d) := by
  rw [memSuffixVal]
  have hsplit : jsSplit 95 (str "MEM_" ++ d) = [[77, 69, 77], d] := by
    rw [show str "MEM_" ++ d = [77, 69, 77] ++ 95 :: d from rfl]
    exact jsSplit_one_sep 95 [77, 69, 77] d (by decide)
      (fun c hc => by have := hd c hc; omega)
  rw [hsplit]
  rw [show ([[77, 69, 77], d] : List JSString).get? 1 = some d from rfl]
  exact parseInt_digits d hd hne

lemma genMemberFromLast_digits (d : JSString) (hd : ∀ c ∈ d, 48 ≤ c ∧ c ≤ 57)
    (hne : d ≠ []) :
    generateMemberNumberFromLast (some (str "MEM_" ++ d)) =
      str "MEM_" ++ pad3 (digitsVal d + 1) := by
  rw [generateMemberNumberFromLast]
  have hsuffix := memSuffixVal_padded d hd hne
  rw [memSuffixVal] at hsuffix
  rw [hsuffix]
  rfl

lemma drop3_of_len3 (p d : JSString) (hp : p.length = 3) :
    (p ++ d).drop 3 = d := by
  rw [← hp]
  exact List.drop_left p d

lemma sliceSuffixVal_padded (p d : JSString) (hp : p.length = 3)
    (hd : ∀ c ∈ d, 48 ≤ c ∧ c ≤ 57) (hne : d ≠ []) :
    sliceSuffixVal (p ++ d) = some (digitsVal d) := by
  rw [sliceSuffixVal, drop3_of_len3 p d hp]
  exact parseInt_digits d hd hne

lemma genLoanFromLast_digits (year : Nat) (p d : JSString) (hp : p.length = 3)
    (hd : ∀ c ∈ d, 48 ≤ c ∧ c ≤ 57) (hne : d ≠ []) :
    generateLoanNumberFromLast year (some (p ++ d)) =
      str "L" ++ yearSuffix year ++ pad3 (digitsVal d + 1) := by
  rw [generateLoanNumberFromLast]
  have hsuffix := sliceSuffixVal_padded p d hp hd hne
  rw [sliceSuffixVal] at hsuffix
  rw [hsuffix]
  rfl

lemma genVoucherFromLast_digits (t : JSString) (year : Nat) (p d : JSString)
    (hp : p.length = 3) (hd : ∀ c ∈ d, 48 ≤ c ∧ c ≤ 57) (hne : d ≠ []) :
    generateVoucherNumberFromLast t year (some (p ++ d)) =
      typeInitial t ++ yearSuffix year ++ pad3 (digitsVal d + 1) := by
  rw [generateVoucherNumberFromLast]
  have hsuffix := sliceSuffixVal_padded p d hp hd hne
  rw [sliceSuffixVal] at hsuffix
  rw [hsuffix]
  rfl

lemma natDigits_length_ge2 (n : Nat) (h : 10 ≤ n) : 2 ≤ (natDigits n).length := by
  rw [natDigits_eq, if_neg (by omega)]
  rw [List.length_append, List.length_singleton]
  have := List.length_pos.mpr (natDigits_ne_nil (n / 10))
  omega

lemma yearSuffix_length (year : Nat) (h : 10 ≤ year) :
    (yearSuffix year).length = 2 := by
  rw [yearSuffix, jsSliceNeg2, List.length_drop]
  have := natDigits_length_ge2 year h
  omega

/-- C5: for a last member number `MEM_` followed by a digit string of value
`n`, the next generated member number is `MEM_` followed by `n + 1` rendered
with zero-padding to at least 3 digits (`pad3`); with no member stored the
generator returns `MEM_001`. -/
theorem member_number_next :
    (∀ d : JSString, (∀ c ∈ d, 48 ≤ c ∧ c ≤ 57) → d ≠ [] →
      generateMemberNumberFromLast (some (str "MEM_" ++ d)) =
        str "MEM_" ++ pad3 (digitsVal d + 1)) ∧
    generateMemberNumber [] = str "MEM_001" :=
  ⟨genMemberFromLast_digits, by decide⟩

/-- Witness for C5: from last member number `MEM_007` the generator yields
`MEM_` + pad3 8, i.e. `MEM_008`. -/
theorem member_number_next_w :
    generateMemberNumberFromLast (some (str "MEM_" ++ str "007")) =
      str "MEM_" ++ pad3 (digitsVal (str "007") + 1) ∧
    str "MEM_" ++ pad3 (digitsVal (str "007") + 1) = str "MEM_008" :=
  ⟨member_number_next.1 (str "007") (by decide) (by decide), by decide⟩

/-- C6 (amended): the next loan number is `L{yy}` + pad3 (n + 1) where `n` is
the integer parsed after the 3-character prefix of the last loan number
overall, whatever year that number carries; n = 1 exactly when no
loan exists at all; and the `L24007`-in-2024 scenario yields `L24008`. -/
theorem loan_number_next :
    (∀ (year : Nat) (p d : JSString), p.length = 3 →
      (∀ c ∈ d, 48 ≤ c ∧ c ≤ 57) → d ≠ [] →
      generateLoanNumberFromLast year (some (p ++ d)) =
        str "L" ++ yearSuffix year ++ pad3 (digitsVal d + 1)) ∧
    (∀ year : Nat, generateLoanNumberFromLast year none =
      str "L" ++ yearSuffix year ++ pad3 1) ∧
    generateLoanNumber 2024 [str "L24007"] = str "L24008" := by
  refine ⟨fun year p d hp hd hne => genLoanFromLast_digits year p d hp hd hne,
    ?_, by decide⟩
  intro year
  rw [generateLoanNumberFromLast, show str "001" = pad3 1 from by decide]

/-- Witness for C6 at the year-2024 scenario inputs. -/
theorem loan_number_next_w :
    generateLoanNumberFromLast 2024 (some (str "L24" ++ str "007")) =
      str "L" ++ yearSuffix 2024 ++ pad3 (digitsVal (str "007") + 1) ∧
    str "L" ++ yearSuffix 2024 ++ pad3 (digitsVal (str "007") + 1) =
      str "L24008" :=
  ⟨loan_number_next.1 2024 (str "L24") (str "007") (by decide) (by decide)
    (by decide), by decide⟩

/-! ## Freshness of generated identifiers (C4) -/

lemma max_of_padded (pfx : JSString) (stored : List JSString)
    (h : ∀ s ∈ stored, ∃ k, k ≤ 999 ∧ s = pfx ++ pad3 k) (hne : stored ≠ []) :
    ∃ M, M ≤ 999 ∧ lastDesc stored = some (pfx ++ pad3 M) ∧
      ∀ k, k ≤ 999 → (pfx ++ pad3 k) ∈ stored → k ≤ M := by
  rcases lastDesc_spec stored hne with ⟨r, hr, hrmem, hall⟩
  rcases h r hrmem with ⟨M, hM, rfl⟩
  refine ⟨M, hM, hr, ?_⟩
  intro k hk hkmem
  have hfalse := hall _ hkmem
  rw [jsLtB_append] at hfalse
  by_contra hlt
  rw [(pad3_lt_iff M k hM hk).mpr (by omega)] at hfalse
  cases hfalse

lemma memSuffixVal_pad3 (k : Nat) :
    memSuffixVal (str "MEM_" ++ pad3 k) = some k := by
  rw [memSuffixVal_padded (pad3 k) (pad3_digits k) (pad3_ne_nil k), digitsVal_pad3]

lemma memGen_fresh (stored : List JSString)
    (h : ∀ s ∈ stored, ∃ k, k ≤ 999 ∧ s = str "MEM_" ++ pad3 k) :
    ∃ n, memSuffixVal (generateMemberNumber stored) = some n ∧
      (∀ s ∈ stored, ∃ k, memSuffixVal s = some k ∧ k < n) ∧
      generateMemberNumber stored ∉ stored := by
  by_cases hne : stored = []
  · subst hne
    refine ⟨1, by decide, ?_, ?_⟩
    · intro s hs
      cases hs
    · intro hmem
      cases hmem
  · rcases max_of_padded (str "MEM_") stored h hne with ⟨M, hM, hlast, hmax⟩
    have hgen : generateMemberNumber stored = str "MEM_" ++ pad3 (M + 1) := by
      rw [generateMemberNumber, hlast,
        genMemberFromLast_digits (pad3 M) (pad3_digits M) (pad3_ne_nil M),
        digitsVal_pad3]
    refine ⟨M + 1, by rw [hgen]; exact memSuffixVal_pad3 (M + 1), ?_, ?_⟩
    · intro s hs
      rcases h s hs with ⟨k, hk, rfl⟩
      exact ⟨k, memSuffixVal_pad3 k, by have := hmax k hk hs; omega⟩
    · intro hmem
      rcases h _ hmem with ⟨k, hk, heq⟩
      have h1 : memSuffixVal (generateMemberNumber stored) = some (M + 1) := by
        rw [hgen]; exact memSuffixVal_pad3 (M + 1)
      have h2 : memSuffixVal (generateMemberNumber stored) = some k := by
        rw [heq]; exact memSuffixVal_pad3 k
      have hk1 : k = M + 1 := by
        rw [h1] at h2
        exact (Option.some.inj h2).symm
      have : k ≤ M := hmax k hk (by rw [← heq]; exact hmem)
      omega

lemma sliceSuffixVal_pad3 (p : JSString) (hp : p.length = 3) (k : Nat) :
    sliceSuffixVal (p ++ pad3 k) = some k := by
  rw [sliceSuffixVal_padded p (pad3 k) hp (pad3_digits k) (pad3_ne_nil k),
    digitsVal_pad3]

lemma loanGen_fresh (year : Nat) (hy : 10 ≤ year) (stored : List JSString)
    (h : ∀ s ∈ stored, ∃ k, k ≤ 999 ∧
      s = (str "L" ++ yearSuffix year) ++ pad3 k) :
    ∃ n, sliceSuffixVal (generateLoanNumber year stored) = some n ∧
      (∀ s ∈ stored, ∃ k, sliceSuffixVal s = some k ∧ k < n) ∧
      generateLoanNumber year stored ∉ stored := by
  have hplen : (str "L" ++ yearSuffix year).length = 3 := by
    rw [List.length_append, yearSuffix_length year hy]
    rfl
  by_cases hne : stored = []
  · subst hne
    have hgen : generateLoanNumber year [] =
        (str "L" ++ yearSuffix year) ++ pad3 1 := by
      rw [show generateLoanNumber year [] =
          str "L" ++ yearSuffix year ++ str "001" from rfl,
        show str "001" = pad3 1 from by decide, List.append_assoc]
    refine ⟨1, by rw [hgen]; exact sliceSuffixVal_pad3 _ hplen 1, ?_, ?_⟩
    · intro s hs
      cases hs
    · intro hmem
      cases hmem
  · rcases max_of_padded (str "L" ++ yearSuffix year) stored h hne with
      ⟨M, hM, hlast, hmax⟩
    have hgen : generateLoanNumber year stored =
        (str "L" ++ yearSuffix year) ++ pad3 (M + 1) := by
      rw [generateLoanNumber, hlast,
        genLoanFromLast_digits year (str "L" ++ yearSuffix year) (pad3 M) hplen
          (pad3_digits M) (pad3_ne_nil M),
        digitsVal_pad3, List.append_assoc]
    refine ⟨M + 1, by rw [hgen]; exact sliceSuffixVal_pad3 _ hplen (M + 1), ?_, ?_⟩
    · intro s hs
      rcases h s hs with ⟨k, hk, rfl⟩
      exact ⟨k, sliceSuffixVal_pad3 _ hplen k, by have := hmax k hk hs; omega⟩
    · intro hmem
      rcases h _ hmem with ⟨k, hk, heq⟩
      have h1 : sliceSuffixVal (generateLoanNumber year stored) = some (M + 1) := by
        rw [hgen]; exact sliceSuffixVal_pad3 _ hplen (M + 1)
      have h2 : sliceSuffixVal (generateLoanNumber year stored) = some k := by
        rw [heq]; exact sliceSuffixVal_pad3 _ hplen k
      have hk1 : k = M + 1 := by
        rw [h1] at h2
        exact (Option.some.inj h2).symm
      have : k ≤ M := hmax k hk (by rw [← heq]; exact hmem)
      omega

lemma voucherGen_fresh (t : JSString) (year : Nat) (hy : 10 ≤ year)
    (c : Nat) (cs : JSString) (ht : t = c :: cs) (stored : List StoredVoucher)
    (h : ∀ v ∈ stored, v.voucherType = t → ∃ k, k ≤ 999 ∧
      v.voucherNo = (typeInitial t ++ yearSuffix year) ++ pad3 k) :
    ∃ n, sliceSuffixVal (generateVoucherNumber t year stored) = some n ∧
      (∀ v ∈ stored, v.voucherType = t →
        ∃ k, sliceSuffixVal v.voucherNo = some k ∧ k < n) ∧
      (∀ v ∈ stored, v.voucherType = t →
        generateVoucherNumber t year stored ≠ v.voucherNo) := by
  have hplen : (typeInitial t ++ yearSuffix year).length = 3 := by
    rw [List.length_append, yearSuffix_length year hy, ht]
    rfl
  have hmemf : ∀ s : JSString,
      s ∈ (stored.filter (fun v => v.voucherType == t)).map
        (fun v => v.voucherNo) ↔
      ∃ v ∈ stored, v.voucherType = t ∧ v.voucherNo = s := by
    intro s
    constructor
    · intro hs
      rcases List.mem_map.mp hs with ⟨v, hv, rfl⟩
      rcases List.mem_filter.mp hv with ⟨hvs, hvt⟩
      exact ⟨v, hvs, by simpa using hvt, rfl⟩
    · intro hs
      rcases hs with ⟨v, hvs, hvt, rfl⟩
      exact List.mem_map.mpr ⟨v, List.mem_filter.mpr ⟨hvs, by simpa using hvt⟩, rfl⟩
  have hpad : ∀ s ∈ (stored.filter (fun v => v.voucherType == t)).map
      (fun v => v.voucherNo), ∃ k, k ≤ 999 ∧
      s = (typeInitial t ++ yearSuffix year) ++ pad3 k := by
    intro s hs
    rcases (hmemf s).mp hs with ⟨v, hvs, hvt, rfl⟩
    exact h v hvs hvt
  by_cases hne : (stored.filter (fun v => v.voucherType == t)).map
      (fun v => v.voucherNo) = []
  · have hgen : generateVoucherNumber t year stored =
        (typeInitial t ++ yearSuffix year) ++ pad3 1 := by
      rw [generateVoucherNumber, hne,
        show lastDesc [] = none from rfl, generateVoucherNumberFromLast,
        show str "001" = pad3 1 from by decide, List.append_assoc]
    refine ⟨1, by rw [hgen]; exact sliceSuffixVal_pad3 _ hplen 1, ?_, ?_⟩
    · intro v hvs hvt
      have : v.voucherNo ∈ (stored.filter (fun v => v.voucherType == t)).map
          (fun v => v.voucherNo) := (hmemf v.voucherNo).mpr ⟨v, hvs, hvt, rfl⟩
      rw [hne] at this
      cases this
    · intro v hvs hvt
      have : v.voucherNo ∈ (stored.filter (fun v => v.voucherType == t)).map
          (fun v => v.voucherNo) := (hmemf v.voucherNo).mpr ⟨v, hvs, hvt, rfl⟩
      rw [hne] at this
      cases this
  · rcases max_of_padded (typeInitial t ++ yearSuffix year) _ hpad hne with
      ⟨M, hM, hlast, hmax⟩
    have hgen : generateVoucherNumber t year stored =
        (typeInitial t ++ yearSuffix year) ++ pad3 (M + 1) := by
      rw [generateVoucherNumber, hlast,
        genVoucherFromLast_digits t year (typeInitial t ++ yearSuffix year)
          (pad3 M) hplen (pad3_digits M) (pad3_ne_nil M),
        digitsVal_pad3, List.append_assoc]
    refine ⟨M + 1, by rw [hgen]; exact sliceSuffixVal_pad3 _ hplen (M + 1), ?_, ?_⟩
    · intro v hvs hvt
      rcases h v hvs hvt with ⟨k, hk, heq⟩
      refine ⟨k, by rw [heq]; exact sliceSuffixVal_pad3 _ hplen k, ?_⟩
      have hvmem : (typeInitial t ++ yearSuffix year) ++ pad3 k ∈
          (stored.filter (fun v => v.voucherType == t)).map
            (fun v => v.voucherNo) :=
        (hmemf _).mpr ⟨v, hvs, hvt, heq⟩
      have := hmax k hk hvmem
      omega
    · intro v hvs hvt heqgen
      rcases h v hvs hvt with ⟨k, hk, heq⟩
      have h1 : sliceSuffixVal (generateVoucherNumber t year stored) =
          some (M + 1) := by
        rw [hgen]; exact sliceSuffixVal_pad3 _ hplen (M + 1)
      have h2 : sliceSuffixVal (generateVoucherNumber t year stored) =
          some k := by
        rw [heqgen, heq]; exact sliceSuffixVal_pad3 _ hplen k
      have hk1 : k = M + 1 := by
        rw [h1] at h2
        exact (Option.some.inj h2).symm
      have hvmem : (typeInitial t ++ yearSuffix year) ++ pad3 k ∈
          (stored.filter (fun v => v.voucherType == t)).map
            (fun v => v.voucherNo) :=
        (hmemf _).mpr ⟨v, hvs, hvt, heq⟩
      have := hmax k hk hvmem
      omega

/-- C4 (amended): as long as every previously issued identifier of the
relevant entity type carries the canonical form — the per-type marker (with
the current year-suffix for loans, and the type initial plus year-suffix for
vouchers, per voucher type) followed by a 3-digit zero-padded numeric suffix
of at most 999, i.e. for at most 999 previously issued identifiers — the
newly generated identifier embeds a numeric suffix strictly greater than
the suffix of every previously issued identifier of that type, and is in
particular distinct from all of them.  Beyond that bound the property fails:
see the counterexample, where the generator re-issues `MEM_1000`. -/
theorem generators_fresh_upto_999 :
    (∀ stored : List JSString,
      (∀ s ∈ stored, ∃ k, k ≤ 999 ∧ s = str "MEM_" ++ pad3 k) →
      ∃ n, memSuffixVal (generateMemberNumber stored) = some n ∧
        (∀ s ∈ stored, ∃ k, memSuffixVal s = some k ∧ k < n) ∧
        generateMemberNumber stored ∉ stored) ∧
    (∀ year : Nat, 10 ≤ year → ∀ stored : List JSString,
      (∀ s ∈ stored, ∃ k, k ≤ 999 ∧
        s = (str "L" ++ yearSuffix year) ++ pad3 k) →
      ∃ n, sliceSuffixVal (generateLoanNumber year stored) = some n ∧
        (∀ s ∈ stored, ∃ k, sliceSuffixVal s = some k ∧ k < n) ∧
        generateLoanNumber year stored ∉ stored) ∧
    (∀ (t : JSString) (year : Nat), 10 ≤ year →
      ∀ (c : Nat) (cs : JSString), t = c :: cs →
      ∀ stored : List StoredVoucher,
      (∀ v ∈ stored, v.voucherType = t → ∃ k, k ≤ 999 ∧
        v.voucherNo = (typeInitial t ++ yearSuffix year) ++ pad3 k) →
      ∃ n, sliceSuffixVal (generateVoucherNumber t year stored) = some n ∧
        (∀ v ∈ stored, v.voucherType = t →
          ∃ k, sliceSuffixVal v.voucherNo = some k ∧ k < n) ∧
        (∀ v ∈ stored, v.voucherType = t →
          generateVoucherNumber t year stored ≠ v.voucherNo)) :=
  ⟨memGen_fresh,
   fun year hy stored h => loanGen_fresh year hy stored h,
   fun t year hy c cs ht stored h => voucherGen_fresh t year hy c cs ht stored h⟩

/-- Witness for C4: instantiated at the one-member store `[MEM_007]`. -/
theorem generators_fresh_upto_999_w :
    ∃ n, memSuffixVal (generateMemberNumber [str "MEM_007"]) = some n ∧
      (∀ s ∈ [str "MEM_007"], ∃ k, memSuffixVal s = some k ∧ k < n) ∧
      generateMemberNumber [str "MEM_007"] ∉ [str "MEM_007"] :=
  generators_fresh_upto_999.1 [str "MEM_007"] (fun s hs => by
    rcases List.mem_singleton.mp hs with rfl
    exact ⟨7, by omega, by decide⟩)

end Fintcs
